import Mathlib

/-!
Shallow embedding of `packages/cli/src/metrics/prometheus-metrics.service.ts`
(`PrometheusMetricsService`) together with the parts of its external
collaborators (`prom-client` registry/counters/gauges, the message event bus
and the cache service emitters) that the service's behaviour depends on.

Modelling choices, each tied to the source:
* `promClient.register` (the global registry) is the pair `heap`/`registry`:
  metric objects live in `heap` (ids are allocation indices, never reused,
  mirroring JS object identity) and `registry` lists the ids currently
  registered.  `register.clear()` empties `registry` but cannot destroy the
  objects themselves, exactly as in prom-client where cached references to a
  metric object survive a registry clear.
* `new promClient.Counter`/`Gauge` validates the name and throws on a
  duplicate registration (`newMetric` returns `Except`).
* The service's `this.counters` JS object is the function `counters`:
  `none` = key absent, `some none` = the `null` rejection marker,
  `some (some id)` = a cached counter handle.
* `eventBus.on(...)`/`cacheService.on(...)` only ever add listeners, so the
  bound listeners are represented by the counts `busHandlers` and
  `cacheHandlers`; every listener added by the source has identical behaviour
  reading the live service state, so a count is a faithful representation.
* The ghost field `validations` counts the calls to
  `promClient.validateMetricName` made inside `toCounter`; it changes no
  control flow.
* `initApiMetrics` and `mountMetricsEndpoint` only wire express middleware
  and routes; they touch no metric state and are not modelled.
-/

namespace PromMetrics

/-! ## JS string primitives used by the service -/

/-- Removes the first occurrence of `pat` from `l`
(JS `String.prototype.replace(pat, "")` with a string pattern). -/
def removeFirstSub (pat : List Char) : List Char → List Char
  | [] => []
  | c :: cs =>
    if pat.isPrefixOf (c :: cs) then (c :: cs).drop pat.length
    else c :: removeFirstSub pat cs

/-- Whether `pat` occurs as a contiguous sublist of `l`. -/
def hasOcc (pat : List Char) : List Char → Bool
  | [] => pat.isPrefixOf []
  | c :: cs => pat.isPrefixOf (c :: cs) || hasOcc pat cs

/-- JS `s.replace(pat, "")`: drop the first occurrence of substring `pat`. -/
def jsReplaceFirst (s pat : String) : String :=
  ⟨removeFirstSub pat.data s.data⟩

/-- JS `s.replace(/\./g, "_")`: every dot becomes an underscore. -/
def replaceDotsUnderscore (s : String) : String :=
  ⟨s.data.map (fun c => if c = '.' then '_' else c)⟩

/-- JS `s.startsWith(p)`. -/
def strStartsWith (s p : String) : Bool :=
  p.data.isPrefixOf s.data

/-- First character admitted by prom-client's metric-name regexp
`^[a-zA-Z_:][a-zA-Z0-9_:]*$`. -/
def isNameStartChar (c : Char) : Bool :=
  c.isAlpha || c = '_' || c = ':'

/-- Continuation character of prom-client's metric-name regexp. -/
def isNameChar (c : Char) : Bool :=
  c.isAlphanum || c = '_' || c = ':'

/-- `promClient.validateMetricName`: the name matches
`^[a-zA-Z_:][a-zA-Z0-9_:]*$`. -/
def validateMetricName (s : String) : Bool :=
  match s.data with
  | [] => false
  | c :: cs => isNameStartChar c && cs.all isNameChar

/-! ## semver parsing (external `semver` library)

Modelled from the spec: the `semver` package itself is an external
collaborator whose source is not part of this repository; the service only
needs "does the version string parse, and if so what are
version/major/minor/patch".  We model `semverParse` on plain
`MAJOR.MINOR.PATCH` version strings (numeric components, no leading zeros),
which is the shape of every version the service ever passes to it. -/

/-- Split a character list at every dot. -/
def splitOnDot : List Char → List (List Char)
  | [] => [[]]
  | c :: cs =>
    let r := splitOnDot cs
    if c = '.' then [] :: r
    else
      match r with
      | [] => [[c]]
      | h :: t => (c :: h) :: t

/-- Decimal value of a digit list. -/
def digitsToNat (l : List Char) : Nat :=
  l.foldl (fun a c => a * 10 + (c.toNat - 48)) 0

/-- A numeric semver identifier: nonempty digits, no leading zero. -/
def parseNumericId (l : List Char) : Option Nat :=
  if !l.isEmpty && l.all Char.isDigit && (l.length == 1 || !(l.head? == some '0'))
  then some (digitsToNat l)
  else none

/-- `semverParse` restricted to plain `MAJOR.MINOR.PATCH` strings,
returning `(major, minor, patch)`. -/
def semverParse (s : String) : Option (Nat × Nat × Nat) :=
  match splitOnDot s.data with
  | [a, b, c] =>
    match parseNumericId a, parseNumericId b, parseNumericId c with
    | some ma, some mi, some pa => some (ma, mi, pa)
    | _, _, _ => none
  | _ => none

/-! ## Data model -/

/-- `type MetricCategory = 'default' | 'api' | 'cache' | 'logs'`. -/
inductive MetricCategory
  | default
  | api
  | cache
  | logs
deriving DecidableEq, Repr

/-- The per-category enable flags (`this.includes.metrics`). -/
structure MetricFlags where
  default : Bool
  api : Bool
  cache : Bool
  logs : Bool
deriving DecidableEq, Repr

/-- The per-label enable flags (`this.includes.labels`). -/
structure LabelFlags where
  credentialsType : Bool
  nodeType : Bool
  workflowId : Bool
  apiPath : Bool
  apiMethod : Bool
  apiStatusCode : Bool
deriving DecidableEq, Repr

/-- The `__type` discriminant of `EventMessageTypes`
(`EventMessageTypeNames`); `generic` stands for every variant other than
the three the service's `switch` handles. -/
inductive EventType
  | audit
  | node
  | workflow
  | generic
deriving DecidableEq, Repr

/-- The payload fields the service reads in `toLabels`. -/
structure Payload where
  credentialType : Option String := none
  workflowId : Option String := none
  nodeType : Option String := none
deriving DecidableEq, Repr

/-- An event-bus message as consumed by the service
(`{ __type, eventName, payload }`). -/
structure EventMsg where
  type : EventType
  eventName : String
  payload : Payload
deriving DecidableEq, Repr

/-- A prom-client metric object (counter or gauge): its registered name,
help string, declared label names and its samples, keyed by the label
value assignment used at increment/set time. -/
structure MetricObj where
  name : String
  help : String
  labelNames : List String
  samples : List (List (String × String) × Nat)
deriving DecidableEq, Repr

/-- Errors thrown by the prom-client constructors. -/
inductive RegErr
  | duplicateMetric
  | invalidName
deriving DecidableEq, Repr

/-- The whole relevant state: the prom-client global registry
(`heap`/`registry`), the service's counter cache `counters`, the include
flags, the configured name prefix `pre`, the `N8N_VERSION` constant, the
listener counts and the ghost validation counter. -/
structure MState where
  heap : List MetricObj
  registry : List Nat
  counters : String → Option (Option Nat)
  includeMetrics : MetricFlags
  includeLabels : LabelFlags
  pre : String
  n8nVersion : Option String
  busHandlers : Nat
  cacheHandlers : Nat
  validations : Nat

/-! ## Registry / cache primitives -/

/-- Read the `this.counters` JS object at a key. -/
def cacheGet (m : String → Option (Option Nat)) (k : String) : Option (Option Nat) :=
  m k

/-- Assign `this.counters[k] = v` (overwriting). -/
def cacheSet (m : String → Option (Option Nat)) (k : String) (v : Option Nat) :
    String → Option (Option Nat) :=
  fun x => if x = k then some v else m x

/-- Add `v` to the sample of `key`, creating the sample when absent
(`counter.inc`). -/
def sampleAdd (ss : List (List (String × String) × Nat))
    (key : List (String × String)) (v : Nat) :
    List (List (String × String) × Nat) :=
  if ss.any (fun p => p.1 = key) then
    ss.map (fun p => if p.1 = key then (p.1, p.2 + v) else p)
  else ss ++ [(key, v)]

/-- Overwrite the sample of `key` with `v` (`gauge.set`). -/
def sampleSet (ss : List (List (String × String) × Nat))
    (key : List (String × String)) (v : Nat) :
    List (List (String × String) × Nat) :=
  if ss.any (fun p => p.1 = key) then
    ss.map (fun p => if p.1 = key then (p.1, v) else p)
  else ss ++ [(key, v)]

/-- Increment metric object `id` at label values `key` by `v`; a dangling id
is a no-op (unreachable from the modelled entry points). -/
def heapInc (h : List MetricObj) (id : Nat) (key : List (String × String)) (v : Nat) :
    List MetricObj :=
  match h.get? id with
  | none => h
  | some m => h.set id { m with samples := sampleAdd m.samples key v }

/-- Set metric object `id` at label values `key` to `v` (`gauge.set`). -/
def heapSetValue (h : List MetricObj) (id : Nat) (key : List (String × String)) (v : Nat) :
    List MetricObj :=
  match h.get? id with
  | none => h
  | some m => h.set id { m with samples := sampleSet m.samples key v }

/-- Names currently registered in the registry. -/
def registeredNames (s : MState) : List String :=
  s.registry.filterMap (fun id => (s.heap.get? id).map MetricObj.name)

/-- `new promClient.Counter(cfg)` / `new promClient.Gauge(cfg)`: validate the
name, throw on a duplicate registration, otherwise allocate the object and
register it in the global registry, returning its handle. -/
def newMetric (s : MState) (name help : String) (labelNames : List String) :
    Except RegErr (Nat × MState) :=
  if validateMetricName name = false then .error .invalidName
  else if (registeredNames s).contains name then .error .duplicateMetric
  else
    .ok (s.heap.length,
      { s with
        heap := s.heap ++ [{ name := name, help := help, labelNames := labelNames, samples := [] }],
        registry := s.registry ++ [s.heap.length] })

/-- The `GET /metrics` text snapshot (`promClient.register.metrics()`),
abstracted to the list of sample lines: metric name, label values, value.
Only currently registered metrics contribute. -/
def snapshot (s : MState) : List (String × List (String × String) × Nat) :=
  (s.registry.filterMap (fun id => s.heap.get? id)).flatMap
    (fun m => m.samples.map (fun p => (m.name, p.1, p.2)))

/-! ## The service operations -/

/-- `enableMetric(metric)`. -/
def setCategory (f : MetricFlags) (m : MetricCategory) (b : Bool) : MetricFlags :=
  match m with
  | .default => { f with default := b }
  | .api => { f with api := b }
  | .cache => { f with cache := b }
  | .logs => { f with logs := b }

/-- `enableMetric(metric)`: `this.includes.metrics[metric] = true`. -/
def enableMetric (s : MState) (m : MetricCategory) : MState :=
  { s with includeMetrics := setCategory s.includeMetrics m true }

/-- `disableMetric(metric)`: `this.includes.metrics[metric] = false`. -/
def disableMetric (s : MState) (m : MetricCategory) : MState :=
  { s with includeMetrics := setCategory s.includeMetrics m false }

/-- `disableAllMetrics()`. -/
def disableAllMetrics (s : MState) : MState :=
  { s with includeMetrics := ⟨false, false, false, false⟩ }

/-- The metric name derived in `toCounter`:
`this.prefix + eventName.replace('n8n.', '').replace(/\./g, '_') + '_total'`. -/
def toMetricName (pre eventName : String) : String :=
  pre ++ replaceDotsUnderscore (jsReplaceFirst eventName "n8n.") ++ "_total"

/-- `toLabels(event)`: the label record derived from the event's `__type`,
name and payload under the current label flags. -/
def toLabels (labels : LabelFlags) (e : EventMsg) : List (String × String) :=
  match e.type with
  | .audit =>
    if strStartsWith e.eventName "n8n.audit.user.credentials" then
      if labels.credentialsType then
        [("credential_type", replaceDotsUnderscore ((e.payload.credentialType).getD "unknown"))]
      else []
    else if strStartsWith e.eventName "n8n.audit.workflow" then
      if labels.workflowId then
        [("workflow_id", (e.payload.workflowId).getD "unknown")]
      else []
    else []
  | .node =>
    if labels.nodeType then
      [("node_type", replaceDotsUnderscore
          (jsReplaceFirst ((e.payload.nodeType).getD "unknown") "n8n-nodes-"))]
    else []
  | .workflow =>
    if labels.workflowId then
      [("workflow_id", (e.payload.workflowId).getD "unknown")]
    else []
  | .generic => []

/-- The cache-miss path of `toCounter` (the body of
`if (!this.counters[eventName]) { ... }` followed by the final read):
derive the name, validate it (counted by the ghost field), either store the
`null` rejection marker or create, zero-initialize and cache the counter. -/
def toCounterMiss (s : MState) (e : EventMsg) : Except RegErr (Option Nat × MState) :=
  let metricName := toMetricName s.pre e.eventName
  let s1 : MState := { s with validations := s.validations + 1 }
  if validateMetricName metricName = false then
    .ok (none, { s1 with counters := cacheSet s1.counters e.eventName none })
  else
    let labels := toLabels s1.includeLabels e
    match newMetric s1 metricName ("Total number of " ++ e.eventName ++ " events.")
        (labels.map Prod.fst) with
    | .error er => .error er
    | .ok (id, s2) =>
      let s3 : MState := { s2 with heap := heapInc s2.heap id labels 0 }
      .ok (some id, { s3 with counters := cacheSet s3.counters e.eventName (some id) })

/-- `toCounter(event)`: the guard `if (!this.counters[eventName])` runs the
miss path both when the key is absent and when it holds the falsy `null`
marker; only a cached counter object short-circuits it. -/
def toCounter (s : MState) (e : EventMsg) : Except RegErr (Option Nat × MState) :=
  match cacheGet s.counters e.eventName with
  | some (some id) => .ok (some id, s)
  | _ => toCounterMiss s e

/-- One bound `metrics.eventBus.event` listener:
`const counter = this.toCounter(event); if (!counter) return; counter.inc(1);`
(the increment carries no labels). -/
def busHandlerOnce (s : MState) (e : EventMsg) : Except RegErr MState :=
  match toCounter s e with
  | .error er => .error er
  | .ok (none, s1) => .ok s1
  | .ok (some id, s1) => .ok { s1 with heap := heapInc s1.heap id [] 1 }

/-- Run `n` bound event-bus listeners in order (EventEmitter semantics; an
exception stops propagation). -/
def runBusHandlers : Nat → MState → EventMsg → Except RegErr MState
  | 0, s, _ => .ok s
  | n + 1, s, e =>
    match busHandlerOnce s e with
    | .error er => .error er
    | .ok s1 => runBusHandlers n s1 e

/-- Emitting one `metrics.eventBus.event` message: every currently bound
listener runs. -/
def deliverBusEvent (s : MState) (e : EventMsg) : Except RegErr MState :=
  runBusHandlers s.busHandlers s e

/-- The cache-service event kinds the service listens to. -/
inductive CacheEvent
  | hit
  | miss
  | update
deriving DecidableEq, Repr

/-- The `this.counters` key each cache listener reads. -/
def cacheKeyOf : CacheEvent → String
  | .hit => "cacheHitsTotal"
  | .miss => "cacheMissesTotal"
  | .update => "cacheUpdatesTotal"

/-- One bound cache listener: `this.counters.cacheXsTotal?.inc(1)`
(optional chaining: absent or `null` entry is a no-op). -/
def cacheHandlerOnce (s : MState) (ev : CacheEvent) : MState :=
  match cacheGet s.counters (cacheKeyOf ev) with
  | some (some id) => { s with heap := heapInc s.heap id [] 1 }
  | _ => s

/-- Run `n` rounds of bound cache listeners. -/
def runCacheHandlers : Nat → MState → CacheEvent → MState
  | 0, s, _ => s
  | n + 1, s, ev => runCacheHandlers n (cacheHandlerOnce s ev) ev

/-- Emitting one `metrics.cache.*` event. -/
def deliverCacheEvent (s : MState) (ev : CacheEvent) : MState :=
  runCacheHandlers s.cacheHandlers s ev

/-- Deliver a sequence of cache events. -/
def deliverCacheEvents (s : MState) (evs : List CacheEvent) : MState :=
  evs.foldl deliverCacheEvent s

/-! ## The init pipeline -/

/-- Representative of the prom-client default process metrics collected by
`collectDefaultMetrics()`. -/
def defaultRepObj : MetricObj :=
  { name := "process_cpu_user_seconds_total",
    help := "Total user CPU time spent in seconds.",
    labelNames := [], samples := [([], 0)] }

/-- `initDefaultMetrics`: `promClient.collectDefaultMetrics()` when the
`default` category is on.  The default process metrics are represented by
one registered metric object. -/
def initDefaultMetrics (s : MState) : MState :=
  if s.includeMetrics.default = false then s
  else
    { s with
      heap := s.heap ++ [defaultRepObj],
      registry := s.registry ++ [s.heap.length] }

/-- The label values of `versionGauge.set({ version: 'v' + version, major,
minor, patch }, 1)`; `version` is semver's normalized `MAJOR.MINOR.PATCH`. -/
def versionLabels (ma mi pa : Nat) : List (String × String) :=
  [("version", "v" ++ toString ma ++ "." ++ toString mi ++ "." ++ toString pa),
   ("major", toString ma), ("minor", toString mi), ("patch", toString pa)]

/-- `initN8nVersionMetric`: parse `N8N_VERSION ?? '0.0.0'`; when it parses,
register the `version_info` gauge and set it to 1 with the
version/major/minor/patch labels. -/
def initN8nVersionMetric (s : MState) : Except RegErr MState :=
  match semverParse ((s.n8nVersion).getD "0.0.0") with
  | none => .ok s
  | some (ma, mi, pa) =>
    match newMetric s (s.pre ++ "version_info") "n8n version info."
        ["version", "major", "minor", "patch"] with
    | .error er => .error er
    | .ok (id, s1) =>
      .ok { s1 with heap := heapSetValue s1.heap id (versionLabels ma mi pa) 1 }

/-- `initCacheMetrics`: when the `cache` category is on, create the three
cache counters, zero-initialize each (an unlabelled `inc(0)`), store them in
`this.counters` and bind one listener per cache event kind. -/
def initCacheMetrics (s : MState) : Except RegErr MState :=
  if s.includeMetrics.cache = false then .ok s
  else
    match newMetric s (s.pre ++ "cache_hits_total")
        "Total number of cache hits." ["cache"] with
    | .error er => .error er
    | .ok (idH, sH) =>
      let sH2 : MState :=
        { sH with heap := heapInc sH.heap idH [] 0,
                  counters := cacheSet sH.counters "cacheHitsTotal" (some idH) }
      match newMetric sH2 (sH2.pre ++ "cache_misses_total")
          "Total number of cache misses." ["cache"] with
      | .error er => .error er
      | .ok (idM, sM) =>
        let sM2 : MState :=
          { sM with heap := heapInc sM.heap idM [] 0,
                    counters := cacheSet sM.counters "cacheMissesTotal" (some idM) }
        match newMetric sM2 (sM2.pre ++ "cache_updates_total")
            "Total number of cache updates." ["cache"] with
        | .error er => .error er
        | .ok (idU, sU) =>
          let sU2 : MState :=
            { sU with heap := heapInc sU.heap idU [] 0,
                      counters := cacheSet sU.counters "cacheUpdatesTotal" (some idU) }
          .ok { sU2 with cacheHandlers := sU2.cacheHandlers + 1 }

/-- `initEventBusMetrics`: when the `logs` category is on, bind one more
`metrics.eventBus.event` listener. -/
def initEventBusMetrics (s : MState) : MState :=
  if s.includeMetrics.logs = false then s
  else { s with busHandlers := s.busHandlers + 1 }

/-- `init(app)`: `promClient.register.clear()` then the init steps in source
order.  `initApiMetrics` and `mountMetricsEndpoint` only wire express and
change no metric state. -/
def init (s : MState) : Except RegErr MState :=
  let s0 : MState := { s with registry := [] }
  let sD := initDefaultMetrics s0
  match initN8nVersionMetric sD with
  | .error er => .error er
  | .ok sV =>
    match initCacheMetrics sV with
    | .error er => .error er
    | .ok sC => .ok (initEventBusMetrics sC)

/-- A fresh service working against a fresh registry, as the tests build it:
no metrics, empty counter cache, no listeners. -/
def mkState (pre : String) (v : Option String) (mf : MetricFlags) (lf : LabelFlags) : MState :=
  { heap := [], registry := [], counters := fun _ => none,
    includeMetrics := mf, includeLabels := lf,
    pre := pre, n8nVersion := v,
    busHandlers := 0, cacheHandlers := 0, validations := 0 }

/-! ## Spec-side formulations, for refinement comparison -/

/-- Modelled from the spec's wording (claim C5): sanitization of the
credential type label value to `[A-Za-z0-9_]`, replacing every character
outside that class with an underscore. -/
def sanitizeSpec (s : String) : String :=
  ⟨s.data.map (fun c => if c.isAlphanum || c = '_' then c else '_')⟩

/-- Modelled from the spec's wording (claim C6): strip the fixed vendor
prefix `n8n.` only when the event name begins with it, replace the
remaining dots with underscores, prepend the configured namespace and
append `_total`. -/
def deriveNameSpec (pre eventName : String) : String :=
  pre ++
    replaceDotsUnderscore
      (if strStartsWith eventName "n8n." then ⟨eventName.data.drop 4⟩ else eventName) ++
    "_total"

/-! ## Concrete example states shared by the example theorems -/

/-- Flags as in the service's integration tests with only the event-bus
(`logs`) category enabled. -/
def exMF : MetricFlags := { default := false, api := false, cache := false, logs := true }

/-- All label flags disabled. -/
def exLF : LabelFlags := ⟨false, false, false, false, false, false⟩

/-- A fresh service configured as in the integration tests
(`endpoints.metrics.prefix = 'n8n_test_'`), `N8N_VERSION` unset so the
source falls back to `'0.0.0'`. -/
def exS0 : MState := mkState "n8n_test_" none exMF exLF

/-- A representative audit event. -/
def exEv : EventMsg := ⟨.audit, "n8n.audit.workflow.updated", {}⟩

/-- Extract the state of a successful step (total helper for examples). -/
def okState (r : Except RegErr MState) (d : MState) : MState :=
  match r with
  | .ok t => t
  | .error _ => d

/-- Extract the state component of a successful `toCounter` call. -/
def okSnd (r : Except RegErr (Option Nat × MState)) (d : MState) : MState :=
  match r with
  | .ok t => t.2
  | .error _ => d

/-- The service right after its first `init`. -/
def exInited : MState := okState (init exS0) exS0

/-- Metric name of `exEv` under the test prefix. -/
def exName : String := "n8n_test_audit_workflow_updated_total"

/-- First epoch: `init` then one event-bus event. -/
def exEpoch1 : Except RegErr MState := do
  let s1 ← init exS0
  deliverBusEvent s1 exEv

/-- Second epoch: clear-and-`init` again, then one more event. -/
def exEpoch2 : Except RegErr MState := do
  let s2 ← exEpoch1
  let s3 ← init s2
  deliverBusEvent s3 exEv

/-! ## C1 -/

/-- C1: the claim says a second `clear()`+`init()` releases the old
event-bus bindings, so one event after re-init yields exactly one increment
visible in the snapshot.  The code violates this: in the first epoch the
event is visible once as claimed, but after re-init two listeners are bound
(`initEventBusMetrics` only ever calls `eventBus.on`), both increment the
stale cached counter object (its sample reaches 3), and the metric does not
appear in the snapshot at all because that object is no longer registered. -/
theorem prom_c1_reinit_bug :
    (exEpoch1.map (fun s =>
        ((snapshot s).filter (fun t => t.1 == exName), s.busHandlers))
      = .ok ([(exName, [], 1)], 1))
    ∧ (exEpoch2.map (fun s =>
        ((snapshot s).filter (fun t => t.1 == exName), s.busHandlers))
      = .ok ([], 2))
    ∧ (exEpoch2.map (fun s => (s.heap.get? 1).map MetricObj.samples)
      = .ok (some [([], 3)])) :=
  ⟨rfl, rfl, rfl⟩

/-! ## C4 -/

/-- Re-init trace for C4: `init`, one event, `init` again. -/
def exReinit : Except RegErr MState := do
  let s2 ← exEpoch1
  init s2

/-- C4: the claim says the clear at the start of `init` also empties the
counter cache, so no prior-epoch handle is ever returned.  The code only
calls `promClient.register.clear()` and never empties `this.counters`:
after re-init the cache still maps the event name to the prior epoch's
counter handle (id 1), that id is no longer registered (registry is `[2]`,
holding only the fresh version gauge), and `toCounter` returns the stale
handle. -/
theorem prom_c4_stale_cache_bug :
    exReinit.map (fun s =>
        (cacheGet s.counters exEv.eventName, s.registry, (toCounter s exEv).map Prod.fst))
      = .ok (some (some 1), [2], .ok (some 1)) :=
  rfl

/-! ## C3 -/

/-- An event whose derived metric name contains a space and therefore fails
prom-client name validation. -/
def exBadEv : EventMsg := ⟨.generic, "n8n.bad name", {}⟩

/-- Deliver the invalid-name event twice after `init`. -/
def exBadTwice : Except RegErr MState := do
  let s1 ← init exS0
  let s2 ← deliverBusEvent s1 exBadEv
  deliverBusEvent s2 exBadEv

/-- C3: the claim says the first lookup stores a permanent rejection marker
and subsequent events with the same name return it without re-deriving or
re-validating.  The code stores the `null` marker, never registers the
metric, never raises, and the metric never reaches the snapshot — but the
guard `if (!this.counters[eventName])` treats the stored `null` as a miss,
so the name is re-derived and re-validated on every delivery: after two
deliveries the ghost validation counter is 2, where the claim requires 1. -/
theorem prom_c3_revalidate_bug :
    exBadTwice.map (fun s =>
        (s.validations, cacheGet s.counters exBadEv.eventName, snapshot s))
      = .ok (2, some none,
          [("n8n_test_version_info",
            [("version", "v0.0.0"), ("major", "0"), ("minor", "0"), ("patch", "0")], 1)]) :=
  rfl

/-! ## C2 -/

/-- Two distinct event names that derive the same metric name: JS
`replace('n8n.', '')` removes the first occurrence anywhere, so
`q.n8n.r` and `q.r` both derive `n8n_test_q_r_total`. -/
def c2e1 : EventMsg := ⟨.generic, "q.n8n.r", {}⟩

/-- The colliding partner event of `c2e1`. -/
def c2e2 : EventMsg := ⟨.generic, "q.r", {}⟩

/-- Lookup-or-create for the two colliding events in sequence. -/
def c2runTwo : Except RegErr (Option Nat × MState) := do
  let (_, s) ← toCounter exInited c2e1
  toCounter s c2e2

/-- C2: counterexample to the claim as stated.  The counter cache is keyed
by event name, not by derived metric name: the two events `q.n8n.r` and
`q.r` derive the same metric name, yet the second lookup misses the cache
and attempts a second registration, which throws `duplicateMetric` instead
of reusing the first counter. -/
theorem prom_c2_counterexample :
    toMetricName exInited.pre c2e1.eventName = toMetricName exInited.pre c2e2.eventName
    ∧ c2runTwo = .error .duplicateMetric :=
  ⟨rfl, rfl⟩

/-! ## C8 -/

/-- An event name containing a non-leading `n8n.` occurrence, for the C8
counterexample. -/
def c8e1 : EventMsg := ⟨.workflow, "x.n8n.y", {}⟩

/-- The colliding partner event of `c8e1`. -/
def c8e2 : EventMsg := ⟨.workflow, "x.y", {}⟩

/-- Two lookup-or-create calls carrying the same derived metric name but
different event names. -/
def c8runTwo : Except RegErr (Option Nat × MState) := do
  let (_, s) ← toCounter exInited c8e1
  toCounter s c8e2

/-- C8: counterexample to the claim as stated.  "Calling the lookup-or-create
operation twice with the same metric name" is not idempotent when the two
calls carry different event names deriving that one metric name: the second
call registers again and throws `duplicateMetric` rather than returning the
first handle. -/
theorem prom_c8_counterexample :
    toMetricName exInited.pre c8e1.eventName = toMetricName exInited.pre c8e2.eventName
    ∧ c8runTwo = .error .duplicateMetric :=
  ⟨rfl, rfl⟩

/-! ## C5 -/

/-- Label flags with only the credentials-type label enabled. -/
def c5lf : LabelFlags := { exLF with credentialsType := true }

/-- A credentials-audit event whose credential type contains a hyphen, which
survives the code's dot-only replacement but not the spec's sanitization. -/
def c5ev : EventMsg :=
  ⟨.audit, "n8n.audit.user.credentials.created", { credentialType := some "x-y.z" }⟩

/-- C5: counterexample to the claim as stated.  The code only replaces dots
(`.replace(/\./g, '_')`): credential type `x-y.z` yields label value
`x-y_z`, while sanitizing to `[A-Za-z0-9_]` as claimed would yield `x_y_z`. -/
theorem prom_c5_counterexample :
    toLabels c5lf c5ev = [("credential_type", "x-y_z")]
    ∧ sanitizeSpec "x-y.z" = "x_y_z"
    ∧ toLabels c5lf c5ev
        ≠ [("credential_type", sanitizeSpec ((c5ev.payload.credentialType).getD "unknown"))] :=
  ⟨rfl, rfl, by decide⟩

/-! ## C6 -/

/-- C6: counterexample to the claim as stated.  The code removes the first
occurrence of `n8n.` anywhere in the event name, not only a leading vendor
prefix: for `a.n8n.b` (which does not start with `n8n.`) the code derives
`n8n_test_a_b_total`, while stripping the prefix only "if present" as
claimed would leave `n8n_test_a_n8n_b_total`. -/
theorem prom_c6_counterexample :
    toMetricName "n8n_test_" "a.n8n.b" = "n8n_test_a_b_total"
    ∧ deriveNameSpec "n8n_test_" "a.n8n.b" = "n8n_test_a_n8n_b_total"
    ∧ toMetricName "n8n_test_" "a.n8n.b" ≠ deriveNameSpec "n8n_test_" "a.n8n.b" :=
  ⟨rfl, rfl, by decide⟩

/-! ## C7 -/

/-- Label flags with only the workflow-id label enabled (the post-`init`
toggle target). -/
def c7lfOn : LabelFlags := { exLF with workflowId := true }

/-- A workflow event. -/
def c7ev : EventMsg := ⟨.workflow, "n8n.workflow.success", {}⟩

/-- Trace for the C7 counterexample: `init` with the workflow-id label off,
deliver the event once, flip the label flag on, deliver the same event. -/
def c7run : Except RegErr MState := do
  let s1 ← init exS0
  let s2 ← deliverBusEvent s1 c7ev
  let s3 : MState := { s2 with includeLabels := c7lfOn }
  deliverBusEvent s3 c7ev

/-- C7: counterexample to the claim as stated.  Label gating is read at
counter-creation time, not per event: with the new flags the label set of
the event would be `workflow_id="unknown"`, yet the event delivered right
after the toggle is still counted with no labels at all (the cached counter
keeps label names `[]` and only its unlabelled sample grows to 2), so the
toggle did not take effect on the very next event processed. -/
theorem prom_c7_counterexample :
    toLabels c7lfOn c7ev = [("workflow_id", "unknown")]
    ∧ c7run.map (fun s =>
        ((s.heap.get? 1).map MetricObj.labelNames,
         (snapshot s).filter (fun t => t.1 == "n8n_test_workflow_success_total")))
      = .ok (some [], [("n8n_test_workflow_success_total", [], 2)]) :=
  ⟨rfl, rfl⟩

/-! ## Helper lemmas about the cache and repeated lookups -/

/-- Reading a key right after writing it. -/
theorem cacheGet_cacheSet_self (m : String → Option (Option Nat)) (k : String)
    (v : Option Nat) : cacheGet (cacheSet m k v) k = some v := by
  simp [cacheGet, cacheSet]

/-- Overwriting a key twice collapses to the last write. -/
theorem cacheSet_cacheSet_self (m : String → Option (Option Nat)) (k : String)
    (v w : Option Nat) : cacheSet (cacheSet m k v) k w = cacheSet m k w := by
  funext x
  by_cases h : x = k <;> simp [cacheSet, h]

/-- Core repeated-lookup lemma for the miss path: if a miss-path call for
`e₁` succeeded, a further `toCounter` call with any event carrying the same
event name returns the same handle and leaves registry, heap and counter
cache unchanged. -/
theorem toCounterMiss_repeat (s : MState) (e₁ e₂ : EventMsg)
    (hn : e₁.eventName = e₂.eventName) (h : Option Nat) (s₁ : MState)
    (hc : toCounterMiss s e₁ = .ok (h, s₁)) :
    ∃ s₂, toCounter s₁ e₂ = .ok (h, s₂) ∧ s₂.registry = s₁.registry
      ∧ s₂.heap = s₁.heap ∧ s₂.counters = s₁.counters := by
  simp only [toCounterMiss] at hc
  split at hc
  case isTrue hv =>
    simp only [Except.ok.injEq, Prod.mk.injEq] at hc
    obtain ⟨rfl, hs₁⟩ := hc
    have hco : s₁.counters = cacheSet s.counters e₁.eventName none := by rw [← hs₁]
    have hpre : s₁.pre = s.pre := by rw [← hs₁]
    have hg : cacheGet s₁.counters e₂.eventName = some none := by
      rw [hco, ← hn]; exact cacheGet_cacheSet_self _ _ _
    have hv₂ : validateMetricName (toMetricName s₁.pre e₂.eventName) = false := by
      rw [hpre, ← hn]; exact hv
    refine ⟨{ s₁ with validations := s₁.validations + 1, counters := cacheSet s₁.counters e₂.eventName none }, ?_, rfl, rfl, ?_⟩
    · simp only [toCounter, hg, toCounterMiss]
      rw [if_pos hv₂]
    · show cacheSet s₁.counters e₂.eventName none = s₁.counters
      rw [hco, ← hn]
      exact cacheSet_cacheSet_self _ _ _ _
  case isFalse hv =>
    split at hc
    case h_1 => simp at hc
    case h_2 id s2 heq =>
      simp only [Except.ok.injEq, Prod.mk.injEq] at hc
      obtain ⟨rfl, hs₁⟩ := hc
      have hco : s₁.counters = cacheSet s2.counters e₁.eventName (some id) := by rw [← hs₁]
      have hg : cacheGet s₁.counters e₂.eventName = some (some id) := by
        rw [hco, ← hn]; exact cacheGet_cacheSet_self _ _ _
      exact ⟨s₁, by simp only [toCounter, hg], rfl, rfl, rfl⟩

/-- Repeated-lookup lemma: a successful `toCounter` call followed by another
call with the same event name returns the same handle (counter or rejection
marker) and performs no registration: registry, heap and cache are
untouched. -/
theorem toCounter_repeat (s : MState) (e₁ e₂ : EventMsg)
    (hn : e₁.eventName = e₂.eventName) (h : Option Nat) (s₁ : MState)
    (hc : toCounter s e₁ = .ok (h, s₁)) :
    ∃ s₂, toCounter s₁ e₂ = .ok (h, s₂) ∧ s₂.registry = s₁.registry
      ∧ s₂.heap = s₁.heap ∧ s₂.counters = s₁.counters := by
  rw [toCounter] at hc
  cases hg : cacheGet s.counters e₁.eventName with
  | none =>
    rw [hg] at hc
    exact toCounterMiss_repeat s e₁ e₂ hn h s₁ hc
  | some v =>
    cases v with
    | none =>
      rw [hg] at hc
      exact toCounterMiss_repeat s e₁ e₂ hn h s₁ hc
    | some id =>
      rw [hg] at hc
      simp only [Except.ok.injEq, Prod.mk.injEq] at hc
      obtain ⟨rfl, rfl⟩ := hc
      refine ⟨s, ?_, rfl, rfl, rfl⟩
      rw [toCounter, ← hn, hg]

/-! ## C2 (amended) -/

/-- C2 amended: the at-most-one-registration discipline is keyed by event
name, not by derived metric name.  For any two events with the same event
name (whatever their types and payloads), once the first lookup-or-create
succeeded, the second returns the very same handle and performs no second
registration: registry, heap and counter cache are all unchanged. -/
theorem prom_c2_amended (s : MState) (e₁ e₂ : EventMsg) (h : Option Nat) (s₁ : MState)
    (hn : e₁.eventName = e₂.eventName) (hc : toCounter s e₁ = .ok (h, s₁)) :
    (toCounter s₁ e₂).map Prod.fst = .ok h
    ∧ (toCounter s₁ e₂).map (fun t => (t.2.registry, t.2.heap, t.2.counters))
      = .ok (s₁.registry, s₁.heap, s₁.counters) := by
  obtain ⟨s₂, h2, hr, hh, hco⟩ := toCounter_repeat s e₁ e₂ hn h s₁ hc
  rw [h2]
  exact ⟨rfl, by simp [Except.map, hr, hh, hco]⟩

/-- Two events sharing one event name but differing in type and payload. -/
def w2a : EventMsg := ⟨.generic, "n8n.w.ev", {}⟩

/-- The second call's event for the C2 witness. -/
def w2b : EventMsg := ⟨.audit, "n8n.w.ev", {}⟩

/-- State after the first lookup-or-create of the C2 witness. -/
def w2s : MState := okSnd (toCounter exInited w2a) exInited

/-- Witness instantiating `prom_c2_amended` on a concrete repeated lookup. -/
theorem prom_c2_witness :
    w2a.eventName = w2b.eventName
    ∧ toCounter exInited w2a = .ok (some 1, w2s)
    ∧ ((toCounter w2s w2b).map Prod.fst = .ok (some 1)
       ∧ (toCounter w2s w2b).map (fun t => (t.2.registry, t.2.heap, t.2.counters))
         = .ok (w2s.registry, w2s.heap, w2s.counters)) :=
  ⟨rfl, rfl, prom_c2_amended exInited w2a w2b (some 1) w2s rfl rfl⟩

/-! ## C8 (amended) -/

/-- C8 amended: the lookup-or-create operation is idempotent per event name
(the cache key the code actually uses): calling `toCounter` again with the
same event returns the same handle as the first successful call and never
registers twice — registry, heap and cache are unchanged. -/
theorem prom_c8_amended (s : MState) (e : EventMsg) (h : Option Nat) (s₁ : MState)
    (hc : toCounter s e = .ok (h, s₁)) :
    (toCounter s₁ e).map Prod.fst = .ok h
    ∧ (toCounter s₁ e).map (fun t => (t.2.registry, t.2.heap, t.2.counters))
      = .ok (s₁.registry, s₁.heap, s₁.counters) := by
  obtain ⟨s₂, h2, hr, hh, hco⟩ := toCounter_repeat s e e rfl h s₁ hc
  rw [h2]
  exact ⟨rfl, by simp [Except.map, hr, hh, hco]⟩

/-- A node event for the C8 witness. -/
def w8 : EventMsg := ⟨.node, "n8n.w.node", {}⟩

/-- State after the first lookup-or-create of the C8 witness. -/
def w8s : MState := okSnd (toCounter exInited w8) exInited

/-- Witness instantiating `prom_c8_amended` on a concrete repeated call. -/
theorem prom_c8_witness :
    toCounter exInited w8 = .ok (some 1, w8s)
    ∧ ((toCounter w8s w8).map Prod.fst = .ok (some 1)
       ∧ (toCounter w8s w8).map (fun t => (t.2.registry, t.2.heap, t.2.counters))
         = .ok (w8s.registry, w8s.heap, w8s.counters)) :=
  ⟨rfl, prom_c8_amended exInited w8 (some 1) w8s rfl⟩

/-! ## C5 (amended) -/

/-- C5 amended: for every audit event matching the credentials-audit
prefix, the label set is empty when the `credentialsType` flag is off, and
otherwise is exactly `credential_type` with the payload's credential type
(defaulting to `unknown`) with every dot — and only dots — replaced by an
underscore. -/
theorem prom_c5_amended (lf : LabelFlags) (e : EventMsg)
    (ht : e.type = .audit)
    (hs : strStartsWith e.eventName "n8n.audit.user.credentials" = true) :
    toLabels lf e =
      if lf.credentialsType then
        [("credential_type", replaceDotsUnderscore ((e.payload.credentialType).getD "unknown"))]
      else [] := by
  obtain ⟨ty, nm, pl⟩ := e
  simp only at ht hs
  subst ht
  simp [toLabels, hs]

/-- Witness instantiating `prom_c5_amended` on a concrete credentials-audit
event. -/
theorem prom_c5_witness :
    c5ev.type = .audit
    ∧ strStartsWith c5ev.eventName "n8n.audit.user.credentials" = true
    ∧ toLabels c5lf c5ev =
        (if c5lf.credentialsType then
          [("credential_type", replaceDotsUnderscore ((c5ev.payload.credentialType).getD "unknown"))]
        else []) :=
  ⟨rfl, rfl, prom_c5_amended c5lf c5ev rfl rfl⟩

/-! ## C6 (amended) -/

/-- Removing the first occurrence when the pattern sits at the very front
drops exactly the pattern's length. -/
theorem removeFirstSub_of_isPrefixOf (pat l : List Char) (hne : pat ≠ [])
    (hp : pat.isPrefixOf l = true) : removeFirstSub pat l = l.drop pat.length := by
  cases l with
  | nil =>
    cases pat with
    | nil => exact absurd rfl hne
    | cons a as => simp [List.isPrefixOf] at hp
  | cons c cs => simp [removeFirstSub, hp]

/-- If the pattern never occurs, the head position is not an occurrence. -/
theorem isPrefixOf_of_hasOcc_false (pat l : List Char) (h : hasOcc pat l = false) :
    pat.isPrefixOf l = false := by
  cases l with
  | nil => simpa [hasOcc] using h
  | cons c cs =>
    simp only [hasOcc, Bool.or_eq_false_iff] at h
    exact h.1

/-- Removing a never-occurring pattern is the identity. -/
theorem removeFirstSub_of_hasOcc_false (pat l : List Char) (h : hasOcc pat l = false) :
    removeFirstSub pat l = l := by
  induction l with
  | nil => simp [removeFirstSub]
  | cons c cs ih =>
    simp only [hasOcc, Bool.or_eq_false_iff] at h
    simp [removeFirstSub, h.1, ih h.2]

/-- C6 amended: the code removes the first occurrence of `n8n.` anywhere in
the event name.  This agrees with the claimed "strip the vendor prefix if
present" derivation for every event name that actually starts with `n8n.`
and for every event name in which `n8n.` does not occur at all, and the
claim's concrete example holds. -/
theorem prom_c6_amended :
    (∀ p e : String, strStartsWith e "n8n." = true → toMetricName p e = deriveNameSpec p e)
    ∧ (∀ p e : String, hasOcc "n8n.".data e.data = false → toMetricName p e = deriveNameSpec p e)
    ∧ toMetricName "n8n_test_" "n8n.audit.workflow.updated"
        = "n8n_test_audit_workflow_updated_total" := by
  refine ⟨?_, ?_, rfl⟩
  · intro p e hs
    have hs' : "n8n.".data.isPrefixOf e.data = true := hs
    have h4 : ("n8n.".data).length = 4 := rfl
    rw [toMetricName, deriveNameSpec, if_pos hs, jsReplaceFirst,
      removeFirstSub_of_isPrefixOf "n8n.".data e.data (by decide) hs', h4]
  · intro p e h
    have hsf : strStartsWith e "n8n." = false := isPrefixOf_of_hasOcc_false _ _ h
    rw [toMetricName, deriveNameSpec, if_neg (by simp [hsf]), jsReplaceFirst,
      removeFirstSub_of_hasOcc_false "n8n.".data e.data h]

/-- Witness instantiating `prom_c6_amended` on the spec's own example. -/
theorem prom_c6_witness :
    strStartsWith "n8n.audit.workflow.updated" "n8n." = true
    ∧ toMetricName "n8n_test_" "n8n.audit.workflow.updated"
        = deriveNameSpec "n8n_test_" "n8n.audit.workflow.updated" :=
  ⟨rfl, prom_c6_amended.1 "n8n_test_" "n8n.audit.workflow.updated" rfl⟩

/-! ## C7 (amended): category toggles vs label toggles -/

/-- Overwrite the category flags (the effect of any sequence of
`enableMetric` / `disableMetric` / `disableAllMetrics` calls). -/
def withMF (s : MState) (M : MetricFlags) : MState :=
  { s with includeMetrics := M }

/-- Registered names ignore the category flags. -/
theorem registeredNames_withMF (s : MState) (M : MetricFlags) :
    registeredNames (withMF s M) = registeredNames s := rfl

/-- Metric construction ignores the category flags. -/
theorem newMetric_withMF (s : MState) (M : MetricFlags) (n h : String) (ln : List String) :
    newMetric (withMF s M) n h ln
      = (newMetric s n h ln).map (fun t => (t.1, withMF t.2 M)) := by
  by_cases h1 : validateMetricName n = false
  · simp [newMetric, h1, Except.map]
  · by_cases h2 : n ∈ registeredNames s
    · simp [newMetric, h1, registeredNames_withMF, h2, Except.map, withMF]
      exact h2
    · simp [newMetric, h1, registeredNames_withMF, h2, Except.map, withMF]
      exact h2

/-- The miss path of the lookup ignores the category flags. -/
theorem toCounterMiss_withMF (s : MState) (M : MetricFlags) (e : EventMsg) :
    toCounterMiss (withMF s M) e
      = (toCounterMiss s e).map (fun t => (t.1, withMF t.2 M)) := by
  simp only [toCounterMiss]
  by_cases hv : validateMetricName (toMetricName s.pre e.eventName) = false
  · rw [show toMetricName (withMF s M).pre e.eventName = toMetricName s.pre e.eventName from rfl,
      if_pos hv, if_pos hv]
    rfl
  · rw [show toMetricName (withMF s M).pre e.eventName = toMetricName s.pre e.eventName from rfl,
      if_neg hv, if_neg hv]
    have hlab : toLabels (withMF s M).includeLabels e = toLabels s.includeLabels e := rfl
    rw [hlab]
    rw [show ({ withMF s M with validations := (withMF s M).validations + 1 } : MState)
          = withMF { s with validations := s.validations + 1 } M from rfl]
    rw [newMetric_withMF]
    cases hm : newMetric { s with validations := s.validations + 1 }
        (toMetricName s.pre e.eventName) ("Total number of " ++ e.eventName ++ " events.")
        ((toLabels s.includeLabels e).map Prod.fst) with
    | error er => rfl
    | ok t => rfl

/-- The whole lookup-or-create ignores the category flags. -/
theorem toCounter_withMF (s : MState) (M : MetricFlags) (e : EventMsg) :
    toCounter (withMF s M) e = (toCounter s e).map (fun t => (t.1, withMF t.2 M)) := by
  simp only [toCounter]
  have hg : cacheGet (withMF s M).counters e.eventName = cacheGet s.counters e.eventName := rfl
  rw [hg]
  cases hc : cacheGet s.counters e.eventName with
  | none => exact toCounterMiss_withMF s M e
  | some v =>
    cases v with
    | none => exact toCounterMiss_withMF s M e
    | some id => rfl

/-- One bound event-bus listener ignores the category flags. -/
theorem busHandlerOnce_withMF (s : MState) (M : MetricFlags) (e : EventMsg) :
    busHandlerOnce (withMF s M) e = (busHandlerOnce s e).map (fun t => withMF t M) := by
  simp only [busHandlerOnce, toCounter_withMF]
  cases hc : toCounter s e with
  | error er => rfl
  | ok t =>
    cases t with
    | mk h s1 =>
      cases h with
      | none => rfl
      | some id => rfl

/-- Any number of bound listeners ignore the category flags. -/
theorem runBusHandlers_withMF (n : Nat) (s : MState) (M : MetricFlags) (e : EventMsg) :
    runBusHandlers n (withMF s M) e = (runBusHandlers n s e).map (fun t => withMF t M) := by
  induction n generalizing s with
  | zero => rfl
  | succ k ih =>
    simp only [runBusHandlers, busHandlerOnce_withMF]
    cases hb : busHandlerOnce s e with
    | error er => rfl
    | ok s1 => exact ih s1

/-- Delivering an event-bus event commutes with any category-flag change:
the processing reads the flags nowhere. -/
theorem deliverBusEvent_withMF (s : MState) (M : MetricFlags) (e : EventMsg) :
    deliverBusEvent (withMF s M) e = (deliverBusEvent s e).map (fun t => withMF t M) := by
  simp only [deliverBusEvent]
  have hb : (withMF s M).busHandlers = s.busHandlers := rfl
  rw [hb]
  exact runBusHandlers_withMF s.busHandlers s M e

/-- Element just appended at the old length. -/
theorem get?_concat_self (l : List α) (a : α) : (l ++ [a]).get? l.length = some a := by
  induction l with
  | nil => rfl
  | cons c cs ih => simpa using ih

/-- Reading back a `set` position that is in bounds. -/
theorem get?_set_self (l : List α) (i : Nat) (a : α) (h : i < l.length) :
    (l.set i a).get? i = some a := by
  induction l generalizing i with
  | nil => cases h
  | cons c cs ih =>
    cases i with
    | zero => rfl
    | succ j =>
      have hj : j < cs.length := Nat.lt_of_succ_lt_succ h
      simpa using ih j hj

/-- When a counter is created (cache miss), its label names come from the
label flags current at that moment. -/
theorem toCounter_creation_labels (s : MState) (e : EventMsg) (id : Nat) (s₁ : MState)
    (hm : cacheGet s.counters e.eventName = none)
    (hc : toCounter s e = .ok (some id, s₁)) :
    (s₁.heap.get? id).map MetricObj.labelNames
      = some ((toLabels s.includeLabels e).map Prod.fst) := by
  rw [toCounter, hm] at hc
  simp only [toCounterMiss] at hc
  split at hc
  case isTrue hv => simp at hc
  case isFalse hv =>
    split at hc
    case h_1 => simp at hc
    case h_2 nid s2 heq =>
      simp only [Except.ok.injEq, Prod.mk.injEq, Option.some.injEq] at hc
      obtain ⟨rfl, hs₁⟩ := hc
      simp only [newMetric] at heq
      split at heq
      case isTrue => simp at heq
      case isFalse =>
        split at heq
        case isTrue => simp at heq
        case isFalse =>
          simp only [Except.ok.injEq, Prod.mk.injEq] at heq
          obtain ⟨hid, hs2⟩ := heq
          have hheap : s₁.heap
              = heapInc s2.heap nid (toLabels s.includeLabels e) 0 := by rw [← hs₁]
          have hget : s2.heap.get? nid
              = some { name := toMetricName s.pre e.eventName,
                       help := "Total number of " ++ e.eventName ++ " events.",
                       labelNames := (toLabels s.includeLabels e).map Prod.fst,
                       samples := [] } := by
            rw [← hs2, ← hid]
            exact get?_concat_self _ _
          have hlen : nid < s2.heap.length := by
            rw [← hs2, ← hid]
            simp
          rw [hheap, heapInc, hget]
          simp only [Option.map]
          rw [get?_set_self _ _ _ hlen]

/-- C7 amended: toggles of the per-category enable flags have no effect on
the handlers already bound — they neither unbind listeners nor are read
anywhere while an event is processed — while the label-inclusion flags are
read when an event's counter is created, i.e. at the first event of each
event name, not on every event (see the counterexample for the cached
case). -/
theorem prom_c7_amended :
    (∀ (s : MState) (M : MetricFlags) (e : EventMsg),
      deliverBusEvent (withMF s M) e = (deliverBusEvent s e).map (fun t => withMF t M))
    ∧ (∀ (s : MState) (m : MetricCategory),
      (enableMetric s m).busHandlers = s.busHandlers
      ∧ (disableMetric s m).busHandlers = s.busHandlers
      ∧ (disableAllMetrics s).busHandlers = s.busHandlers)
    ∧ (∀ (s : MState) (e : EventMsg) (id : Nat) (s₁ : MState),
      cacheGet s.counters e.eventName = none →
      toCounter s e = .ok (some id, s₁) →
      (s₁.heap.get? id).map MetricObj.labelNames
        = some ((toLabels s.includeLabels e).map Prod.fst)) :=
  ⟨deliverBusEvent_withMF, fun _ _ => ⟨rfl, rfl, rfl⟩, toCounter_creation_labels⟩

/-- Fresh event for the C7 witness. -/
def c7evW : EventMsg := ⟨.workflow, "n8n.workflow.failed", {}⟩

/-- State after the counter of `c7evW` is created. -/
def c7sW : MState := okSnd (toCounter exInited c7evW) exInited

/-- Witness instantiating `prom_c7_amended` (the creation-time conjunct)
at a concrete state and event. -/
theorem prom_c7_witness :
    cacheGet exInited.counters c7evW.eventName = none
    ∧ toCounter exInited c7evW = .ok (some 1, c7sW)
    ∧ (c7sW.heap.get? 1).map MetricObj.labelNames
        = some ((toLabels exInited.includeLabels c7evW).map Prod.fst) :=
  ⟨rfl, rfl, prom_c7_amended.2.2 exInited c7evW 1 c7sW rfl rfl⟩

/-! ## List and registry bookkeeping lemmas -/

/-- Element at the start of the appended tail. -/
theorem get?_append_cons (l : List α) (a : α) (rest : List α) :
    (l ++ a :: rest).get? l.length = some a := by
  induction l with
  | nil => rfl
  | cons c cs ih => simpa using ih

/-- Overwriting the just-appended element. -/
theorem set_concat_self (l : List α) (a b : α) : (l ++ [a]).set l.length b = l ++ [b] := by
  induction l with
  | nil => rfl
  | cons c cs ih => simp [List.set, ih]

/-- A sample line of a registered metric is in the snapshot. -/
theorem mem_snapshot (s : MState) (id : Nat) (m : MetricObj)
    (key : List (String × String)) (v : Nat)
    (hid : id ∈ s.registry) (hm : s.heap.get? id = some m) (hs : (key, v) ∈ m.samples) :
    (m.name, key, v) ∈ snapshot s := by
  simp only [snapshot, List.mem_flatMap]
  refine ⟨m, ?_, ?_⟩
  · exact List.mem_filterMap.mpr ⟨id, hid, hm⟩
  · exact List.mem_map.mpr ⟨(key, v), hs, rfl⟩

/-! ## Step characterizations of the init pipeline -/

/-- What `initDefaultMetrics` does, by category flag. -/
theorem initDefaultMetrics_spec (t : MState) :
    (t.includeMetrics.default = false ∧ initDefaultMetrics t = t)
    ∨ (t.includeMetrics.default = true
       ∧ initDefaultMetrics t
         = { t with
               heap := t.heap ++ [defaultRepObj],
               registry := t.registry ++ [t.heap.length] }) := by
  by_cases hd : t.includeMetrics.default = false
  · exact Or.inl ⟨hd, by simp [initDefaultMetrics, hd]⟩
  · simp only [Bool.not_eq_false] at hd
    exact Or.inr ⟨hd, by simp [initDefaultMetrics, hd]⟩

/-- The registered `version_info` gauge object after a successful parse. -/
def versionObj (pre : String) (ma mi pa : Nat) : MetricObj :=
  { name := pre ++ "version_info", help := "n8n version info.",
    labelNames := ["version", "major", "minor", "patch"],
    samples := [(versionLabels ma mi pa, 1)] }

/-- What a successful `initN8nVersionMetric` does, by parse outcome. -/
theorem initN8nVersionMetric_spec (t t' : MState) (h : initN8nVersionMetric t = .ok t') :
    (semverParse ((t.n8nVersion).getD "0.0.0") = none ∧ t' = t)
    ∨ ∃ ma mi pa, semverParse ((t.n8nVersion).getD "0.0.0") = some (ma, mi, pa)
      ∧ t' = { t with
                 heap := t.heap ++ [versionObj t.pre ma mi pa],
                 registry := t.registry ++ [t.heap.length] } := by
  cases hp : semverParse ((t.n8nVersion).getD "0.0.0") with
  | none =>
    simp only [initN8nVersionMetric, hp] at h
    injection h with h'
    exact Or.inl ⟨rfl, h'.symm⟩
  | some trip =>
    obtain ⟨ma, mi, pa⟩ := trip
    simp only [initN8nVersionMetric, hp, newMetric] at h
    split at h
    next x er heq => simp at h
    next x id s2 heq =>
      injection h with h'
      split at heq
      · simp at heq
      · split at heq
        · simp at heq
        · simp only [Except.ok.injEq, Prod.mk.injEq] at heq
          obtain ⟨hid, hs2⟩ := heq
          subst hid
          subst hs2
          refine Or.inr ⟨ma, mi, pa, rfl, ?_⟩
          rw [← h']
          simp only [heapSetValue, get?_append_cons, set_concat_self]
          simp [sampleSet, versionObj]

/-- The cache hits counter object right after zero-initialization. -/
def cacheHitsObj (pre : String) : MetricObj :=
  { name := pre ++ "cache_hits_total", help := "Total number of cache hits.",
    labelNames := ["cache"], samples := [([], 0)] }

/-- The cache misses counter object right after zero-initialization. -/
def cacheMissesObj (pre : String) : MetricObj :=
  { name := pre ++ "cache_misses_total", help := "Total number of cache misses.",
    labelNames := ["cache"], samples := [([], 0)] }

/-- The cache updates counter object right after zero-initialization. -/
def cacheUpdatesObj (pre : String) : MetricObj :=
  { name := pre ++ "cache_updates_total", help := "Total number of cache updates.",
    labelNames := ["cache"], samples := [([], 0)] }

/-- What a successful `initCacheMetrics` does, by category flag. -/
theorem initCacheMetrics_spec (t t' : MState) (h : initCacheMetrics t = .ok t') :
    (t.includeMetrics.cache = false ∧ t' = t)
    ∨ (t.includeMetrics.cache = true
       ∧ t' = { t with
           heap := t.heap ++ [cacheHitsObj t.pre, cacheMissesObj t.pre, cacheUpdatesObj t.pre],
           registry := t.registry ++ [t.heap.length, t.heap.length + 1, t.heap.length + 2],
           counters := cacheSet (cacheSet (cacheSet t.counters "cacheHitsTotal"
               (some t.heap.length)) "cacheMissesTotal" (some (t.heap.length + 1)))
               "cacheUpdatesTotal" (some (t.heap.length + 2)),
           cacheHandlers := t.cacheHandlers + 1 }) := by
  by_cases hcf : t.includeMetrics.cache = false
  · simp only [initCacheMetrics, if_pos hcf] at h
    injection h with h'
    exact Or.inl ⟨hcf, h'.symm⟩
  · have hct : t.includeMetrics.cache = true := by
      revert hcf; cases t.includeMetrics.cache <;> simp
    simp only [initCacheMetrics, if_neg hcf, newMetric] at h
    split at h
    next xH erH heqH => simp at h
    next xH idH sH heqH =>
      split at h
      next xM erM heqM => simp at h
      next xM idM sM heqM =>
        split at h
        next xU erU heqU => simp at h
        next xU idU sU heqU =>
          injection h with h'
          refine Or.inr ⟨hct, ?_⟩
          split at heqH
          · simp at heqH
          · split at heqH
            · simp at heqH
            · simp only [Except.ok.injEq, Prod.mk.injEq] at heqH
              obtain ⟨hidH, hsH⟩ := heqH
              subst hidH
              subst hsH
              split at heqM
              · simp at heqM
              · split at heqM
                · simp at heqM
                · simp only [Except.ok.injEq, Prod.mk.injEq] at heqM
                  obtain ⟨hidM, hsM⟩ := heqM
                  subst hidM
                  subst hsM
                  split at heqU
                  · simp at heqU
                  · split at heqU
                    · simp at heqU
                    · simp only [Except.ok.injEq, Prod.mk.injEq] at heqU
                      obtain ⟨hidU, hsU⟩ := heqU
                      subst hidU
                      subst hsU
                      rw [← h']
                      simp only [heapInc, get?_append_cons, set_concat_self, sampleAdd]
                      simp [cacheHitsObj, cacheMissesObj, cacheUpdatesObj, List.append_assoc]

/-- `initEventBusMetrics` leaves the heap untouched. -/
theorem initEventBusMetrics_heap (t : MState) : (initEventBusMetrics t).heap = t.heap := by
  simp only [initEventBusMetrics]; split <;> rfl

/-- `initEventBusMetrics` leaves the registry untouched. -/
theorem initEventBusMetrics_registry (t : MState) :
    (initEventBusMetrics t).registry = t.registry := by
  simp only [initEventBusMetrics]; split <;> rfl

/-- `initEventBusMetrics` leaves the cache listener count untouched. -/
theorem initEventBusMetrics_cacheHandlers (t : MState) :
    (initEventBusMetrics t).cacheHandlers = t.cacheHandlers := by
  simp only [initEventBusMetrics]; split <;> rfl

/-- `initEventBusMetrics` does not change the snapshot. -/
theorem snapshot_initEventBusMetrics (t : MState) :
    snapshot (initEventBusMetrics t) = snapshot t := by
  simp only [snapshot, initEventBusMetrics_heap, initEventBusMetrics_registry]

/-- `initDefaultMetrics` preserves the version constant. -/
theorem initDefaultMetrics_n8nVersion (t : MState) :
    (initDefaultMetrics t).n8nVersion = t.n8nVersion := by
  simp only [initDefaultMetrics]; split <;> rfl

/-- `initDefaultMetrics` preserves the configured name prefix. -/
theorem initDefaultMetrics_pre (t : MState) : (initDefaultMetrics t).pre = t.pre := by
  simp only [initDefaultMetrics]; split <;> rfl

/-- `initDefaultMetrics` preserves the cache listener count. -/
theorem initDefaultMetrics_cacheHandlers (t : MState) :
    (initDefaultMetrics t).cacheHandlers = t.cacheHandlers := by
  simp only [initDefaultMetrics]; split <;> rfl

/-- With no bound cache listeners, cache events are dropped. -/
theorem deliverCacheEvents_noHandlers (s : MState) (h : s.cacheHandlers = 0)
    (evs : List CacheEvent) : deliverCacheEvents s evs = s := by
  induction evs with
  | nil => rfl
  | cons ev evs ih =>
    have h1 : deliverCacheEvent s ev = s := by rw [deliverCacheEvent, h]; rfl
    simp only [deliverCacheEvents, List.foldl_cons, h1]
    exact ih

/-- `initDefaultMetrics` preserves the include flags. -/
theorem initDefaultMetrics_includeMetrics (t : MState) :
    (initDefaultMetrics t).includeMetrics = t.includeMetrics := by
  simp only [initDefaultMetrics]; split <;> rfl

/-- A successful `initN8nVersionMetric` only touches heap and registry. -/
theorem initN8nVersionMetric_fields (t t' : MState) (h : initN8nVersionMetric t = .ok t') :
    t'.includeMetrics = t.includeMetrics ∧ t'.pre = t.pre
    ∧ t'.cacheHandlers = t.cacheHandlers ∧ t'.n8nVersion = t.n8nVersion := by
  rcases initN8nVersionMetric_spec t t' h with ⟨_, rfl⟩ | ⟨_, _, _, _, rfl⟩ <;>
    exact ⟨rfl, rfl, rfl, rfl⟩

/-! ## C10 -/

/-- C10: whenever the process version string (with the `?? '0.0.0'`
fallback) parses as a semantic version, every successful `init` registers
the `version_info` gauge set to 1 with the version/major/minor/patch
labels, for every combination of category flags (hence also after
`disableAllMetrics`): the gauge sample is in the snapshot right after
`init`. -/
theorem prom_c10_version_metric (s : MState) (ma mi pa : Nat) (s' : MState)
    (hp : semverParse ((s.n8nVersion).getD "0.0.0") = some (ma, mi, pa))
    (hi : init s = .ok s') :
    (s.pre ++ "version_info", versionLabels ma mi pa, 1) ∈ snapshot s' := by
  simp only [init] at hi
  set s0 : MState := { s with registry := [] } with hs0
  set sD : MState := initDefaultMetrics s0 with hsD
  split at hi
  next x er heq => simp at hi
  next x sV heqV =>
    split at hi
    next y er heq => simp at hi
    next y sC heqC =>
      injection hi with hi'
      have hpD : semverParse ((sD.n8nVersion).getD "0.0.0") = some (ma, mi, pa) := by
        rw [hsD, initDefaultMetrics_n8nVersion]
        exact hp
      have hpre : sD.pre = s.pre := by
        rw [hsD, initDefaultMetrics_pre]
      rcases initN8nVersionMetric_spec sD sV heqV with ⟨hpnone, _⟩ | ⟨ma', mi', pa', hp', hV⟩
      · rw [hpD] at hpnone
        simp at hpnone
      · rw [hpD] at hp'
        simp only [Option.some.injEq, Prod.mk.injEq] at hp'
        obtain ⟨rfl, rfl, rfl⟩ := hp'
        have hidmem : sD.heap.length ∈ sV.registry := by
          rw [hV]; simp
        have hidget : sV.heap.get? sD.heap.length = some (versionObj sD.pre ma mi pa) := by
          rw [hV]; exact get?_append_cons _ _ _
        have hsamp : (versionLabels ma mi pa, 1) ∈ (versionObj sD.pre ma mi pa).samples := by
          simp [versionObj]
        rw [← hi', snapshot_initEventBusMetrics]
        rcases initCacheMetrics_spec sV sC heqC with ⟨_, hCeq⟩ | ⟨_, hC⟩
        · rw [hCeq]
          have hmem := mem_snapshot sV sD.heap.length (versionObj sD.pre ma mi pa)
            (versionLabels ma mi pa) 1 hidmem hidget hsamp
          simpa [versionObj, hpre] using hmem
        · have hlen : sD.heap.length < sV.heap.length := by
            rw [hV]; simp
          have hmem2 : sD.heap.length ∈ sC.registry := by
            rw [hC]
            exact List.mem_append_left _ hidmem
          have hget2 : sC.heap.get? sD.heap.length = some (versionObj sD.pre ma mi pa) := by
            rw [hC]
            exact (List.get?_append hlen).trans hidget
          have hmem := mem_snapshot sC sD.heap.length (versionObj sD.pre ma mi pa)
            (versionLabels ma mi pa) 1 hmem2 hget2 hsamp
          simpa [versionObj, hpre] using hmem

/-- Flags for the C10 witness (all categories off, as after
`disableAllMetrics`). -/
def c10mfW : MetricFlags := ⟨false, false, false, false⟩

/-- Initial state for the C10 witness with `N8N_VERSION = '1.2.3'`. -/
def c10sW : MState := mkState "n8n_test_" (some "1.2.3") c10mfW exLF

/-- State after `init` for the C10 witness. -/
def c10sW' : MState := okState (init c10sW) c10sW

/-- Witness instantiating `prom_c10_version_metric` on a concrete state. -/
theorem prom_c10_witness :
    semverParse ((c10sW.n8nVersion).getD "0.0.0") = some (1, 2, 3)
    ∧ init c10sW = .ok c10sW'
    ∧ (c10sW.pre ++ "version_info", versionLabels 1 2 3, 1) ∈ snapshot c10sW' :=
  ⟨rfl, rfl, prom_c10_version_metric c10sW 1 2 3 c10sW' rfl rfl⟩

/-! ## C9 -/

/-- C9: with the test prefix, starting from a fresh service and registry:
if the `cache` category is disabled before `init`, none of the three cache
counters ever appears in the snapshot, no matter how many cache events are
delivered afterwards (no listener was bound); if it is enabled before
`init`, all three cache counters appear in the snapshot at value 0 right
after `init`, before any cache event. -/
theorem prom_c9_cache_gating (mf : MetricFlags) (lf : LabelFlags) (v : Option String) :
    (mf.cache = false →
      ∀ s', init (mkState "n8n_test_" v mf lf) = .ok s' →
        ∀ evs : List CacheEvent, ∀ t ∈ snapshot (deliverCacheEvents s' evs),
          t.1 ≠ "n8n_test_cache_hits_total"
          ∧ t.1 ≠ "n8n_test_cache_misses_total"
          ∧ t.1 ≠ "n8n_test_cache_updates_total")
    ∧ (mf.cache = true →
      ∀ s', init (mkState "n8n_test_" v mf lf) = .ok s' →
        ("n8n_test_cache_hits_total", ([] : List (String × String)), 0) ∈ snapshot s'
        ∧ ("n8n_test_cache_misses_total", ([] : List (String × String)), 0) ∈ snapshot s'
        ∧ ("n8n_test_cache_updates_total", ([] : List (String × String)), 0) ∈ snapshot s') := by
  constructor
  · intro hcf s' hi evs t ht
    simp only [init] at hi
    set s0 : MState := { mkState "n8n_test_" v mf lf with registry := [] } with hs0
    set sD : MState := initDefaultMetrics s0 with hsD
    split at hi
    next x er heq => simp at hi
    next x sV heqV =>
      split at hi
      next y er heq => simp at hi
      next y sC heqC =>
        injection hi with hi'
        obtain ⟨hVm, hVp, hVc, _⟩ := initN8nVersionMetric_fields sD sV heqV
        have hscf : sV.includeMetrics.cache = false := by
          rw [hVm, hsD, initDefaultMetrics_includeMetrics]
          exact hcf
        rcases initCacheMetrics_spec sV sC heqC with ⟨_, hCeq⟩ | ⟨hct', _⟩
        · have h0 : s'.cacheHandlers = 0 := by
            rw [← hi', initEventBusMetrics_cacheHandlers, hCeq, hVc, hsD,
              initDefaultMetrics_cacheHandlers]
            rfl
          rw [deliverCacheEvents_noHandlers s' h0] at ht
          rw [← hi', snapshot_initEventBusMetrics, hCeq] at ht
          rcases initN8nVersionMetric_spec sD sV heqV with ⟨_, hVeq⟩ | ⟨ma, mi, pa, _, hVrec⟩
          · subst hVeq
            rcases initDefaultMetrics_spec s0 with ⟨_, hD⟩ | ⟨_, hD⟩
            · rw [hsD, hD, hs0] at ht
              simp [snapshot, mkState] at ht
            · rw [hsD, hD, hs0] at ht
              simp [snapshot, mkState, defaultRepObj, List.get?] at ht
              subst ht
              exact ⟨by decide, by decide, by decide⟩
          · rcases initDefaultMetrics_spec s0 with ⟨_, hD⟩ | ⟨_, hD⟩
            · rw [hVrec, hsD, hD, hs0] at ht
              simp [snapshot, mkState, versionObj, List.get?] at ht
              subst ht
              refine ⟨?_, ?_, ?_⟩
              · show ("n8n_test_version_info" : String) ≠ "n8n_test_cache_hits_total"
                decide
              · show ("n8n_test_version_info" : String) ≠ "n8n_test_cache_misses_total"
                decide
              · show ("n8n_test_version_info" : String) ≠ "n8n_test_cache_updates_total"
                decide
            · rw [hVrec, hsD, hD, hs0] at ht
              simp [snapshot, mkState, versionObj, defaultRepObj, List.get?] at ht
              rcases ht with rfl | rfl
              · exact ⟨by decide, by decide, by decide⟩
              · refine ⟨?_, ?_, ?_⟩
                · show ("n8n_test_version_info" : String) ≠ "n8n_test_cache_hits_total"
                  decide
                · show ("n8n_test_version_info" : String) ≠ "n8n_test_cache_misses_total"
                  decide
                · show ("n8n_test_version_info" : String) ≠ "n8n_test_cache_updates_total"
                  decide
        · rw [hscf] at hct'
          simp at hct'
  · intro hct s' hi
    simp only [init] at hi
    set s0 : MState := { mkState "n8n_test_" v mf lf with registry := [] } with hs0
    set sD : MState := initDefaultMetrics s0 with hsD
    split at hi
    next x er heq => simp at hi
    next x sV heqV =>
      split at hi
      next y er heq => simp at hi
      next y sC heqC =>
        injection hi with hi'
        obtain ⟨hVm, hVp, _, _⟩ := initN8nVersionMetric_fields sD sV heqV
        have hpre : sV.pre = "n8n_test_" := by
          rw [hVp, hsD, initDefaultMetrics_pre]
          rfl
        rcases initCacheMetrics_spec sV sC heqC with ⟨hcf', _⟩ | ⟨_, hC⟩
        · have hx : sV.includeMetrics.cache = true := by
            rw [hVm, hsD, initDefaultMetrics_includeMetrics]
            exact hct
          rw [hx] at hcf'
          simp at hcf'
        · rw [← hi', snapshot_initEventBusMetrics]
          have hmemH : sV.heap.length ∈ sC.registry := by rw [hC]; simp
          have hmemM : sV.heap.length + 1 ∈ sC.registry := by rw [hC]; simp
          have hmemU : sV.heap.length + 2 ∈ sC.registry := by rw [hC]; simp
          have hgetH : sC.heap.get? sV.heap.length = some (cacheHitsObj sV.pre) := by
            rw [hC]
            exact get?_append_cons _ _ _
          have hgetM : sC.heap.get? (sV.heap.length + 1) = some (cacheMissesObj sV.pre) := by
            rw [hC]
            show (sV.heap ++
              [cacheHitsObj sV.pre, cacheMissesObj sV.pre, cacheUpdatesObj sV.pre]).get?
                (sV.heap.length + 1) = _
            rw [show sV.heap ++
                  [cacheHitsObj sV.pre, cacheMissesObj sV.pre, cacheUpdatesObj sV.pre]
                = (sV.heap ++ [cacheHitsObj sV.pre])
                    ++ [cacheMissesObj sV.pre, cacheUpdatesObj sV.pre] from by simp,
              show sV.heap.length + 1 = (sV.heap ++ [cacheHitsObj sV.pre]).length from by simp]
            exact get?_append_cons _ _ _
          have hgetU : sC.heap.get? (sV.heap.length + 2) = some (cacheUpdatesObj sV.pre) := by
            rw [hC]
            show (sV.heap ++
              [cacheHitsObj sV.pre, cacheMissesObj sV.pre, cacheUpdatesObj sV.pre]).get?
                (sV.heap.length + 2) = _
            rw [show sV.heap ++
                  [cacheHitsObj sV.pre, cacheMissesObj sV.pre, cacheUpdatesObj sV.pre]
                = (sV.heap ++ [cacheHitsObj sV.pre, cacheMissesObj sV.pre])
                    ++ [cacheUpdatesObj sV.pre] from by simp,
              show sV.heap.length + 2
                = (sV.heap ++ [cacheHitsObj sV.pre, cacheMissesObj sV.pre]).length from by simp]
            exact get?_append_cons _ _ _
          refine ⟨?_, ?_, ?_⟩
          · have hmem := mem_snapshot sC (sV.heap.length) (cacheHitsObj sV.pre) [] 0
              hmemH hgetH (by simp [cacheHitsObj])
            have hname : (cacheHitsObj sV.pre).name = "n8n_test_cache_hits_total" := by
              simp only [cacheHitsObj]
              rw [hpre]
              decide
            rw [hname] at hmem
            exact hmem
          · have hmem := mem_snapshot sC (sV.heap.length + 1) (cacheMissesObj sV.pre) [] 0
              hmemM hgetM (by simp [cacheMissesObj])
            have hname : (cacheMissesObj sV.pre).name = "n8n_test_cache_misses_total" := by
              simp only [cacheMissesObj]
              rw [hpre]
              decide
            rw [hname] at hmem
            exact hmem
          · have hmem := mem_snapshot sC (sV.heap.length + 2) (cacheUpdatesObj sV.pre) [] 0
              hmemU hgetU (by simp [cacheUpdatesObj])
            have hname : (cacheUpdatesObj sV.pre).name = "n8n_test_cache_updates_total" := by
              simp only [cacheUpdatesObj]
              rw [hpre]
              decide
            rw [hname] at hmem
            exact hmem

/-- Flags for the C9 witness (only `cache` enabled). -/
def c9mfW : MetricFlags := ⟨false, false, true, false⟩

/-- Initial state for the C9 witness. -/
def c9sW : MState := mkState "n8n_test_" (some "1.22.3") c9mfW exLF

/-- State after `init` for the C9 witness. -/
def c9sW' : MState := okState (init c9sW) c9sW

/-- Witness instantiating `prom_c9_cache_gating` (enabled branch) on a
concrete state. -/
theorem prom_c9_witness :
    c9mfW.cache = true
    ∧ init c9sW = .ok c9sW'
    ∧ (("n8n_test_cache_hits_total", ([] : List (String × String)), 0) ∈ snapshot c9sW'
       ∧ ("n8n_test_cache_misses_total", ([] : List (String × String)), 0) ∈ snapshot c9sW'
       ∧ ("n8n_test_cache_updates_total", ([] : List (String × String)), 0) ∈ snapshot c9sW') :=
  ⟨rfl, rfl, (prom_c9_cache_gating c9mfW exLF (some "1.22.3")).2 rfl c9sW' rfl⟩

end PromMetrics
